import Mathlib

/-!
Verification development for `scripts/conp_to_nidm_terms/functions.py` of the
conp-dataset repository.

The Python module has four pieces:
  * `get_api_response(term)` — calls the NIF/InterLex HTTP API and extracts an IRI;
  * `collect_values(...)` — walks the projects directory, reads each `DATS.json`,
    and accumulates unique values per property into a report;
  * `find_duplicates(report)` — flags values identical after lowercasing;
  * `generate_jsonld_files(report, use_api)` — writes one JSON-LD file per term.

The shallow embedding below models Python strings as Lean `String` (ASCII
behaviour of `str.lower` / `str.title` / `str.isalnum`), Python sets as
duplicate-free lists maintained by `setInsert` (content and cardinality agree
with Python's `set`; ordering of a Python set is unspecified anyway), Python
dicts as insertion-ordered association lists, raised-and-uncaught exceptions as
`Except.error`, and the network as an explicit oracle argument.
-/

/-! ### Python string primitives (ASCII fragment) -/

/-- Python `str.lower()` on ASCII text: lowercase every character. -/
def pyLower (s : String) : String := String.mk (s.toList.map Char.toLower)

/-- Python `str.upper()` on ASCII text: uppercase every character. -/
def pyUpper (s : String) : String := String.mk (s.toList.map Char.toUpper)

/-- Helper for `pyTitle`: the Boolean records whether the previous character of
the original string was alphabetic (Python: cased). -/
def pyTitleGo : Bool → List Char → List Char
  | _, [] => []
  | prevAlpha, c :: cs =>
      (if prevAlpha then c.toLower else c.toUpper) :: pyTitleGo c.isAlpha cs

/-- Python `str.title()` on ASCII text: a character is uppercased when the
preceding character is not alphabetic, lowercased otherwise. -/
def pyTitle (s : String) : String := String.mk (pyTitleGo false s.toList)

/-- `l₁` occurs as a leading segment of `l₂` (character lists). -/
def leadsList : List Char → List Char → Bool
  | [], _ => true
  | _ :: _, [] => false
  | a :: as, b :: bs => a = b && leadsList as bs

/-- `pat` occurs as a contiguous segment of `l` (character lists). -/
def segOfList (pat : List Char) : List Char → Bool
  | [] => leadsList pat []
  | c :: cs => leadsList pat (c :: cs) || segOfList pat cs

/-- Python `pat in s` for strings: substring containment, case-sensitive. -/
def strContainsSub (s pat : String) : Bool := segOfList pat.toList s.toList

/-! ### `get_api_response` -/

/-- One element of the `data.existing_ids` list of an API response: the
`curie` key may be absent (`none`), the `iri` key is read only on a match and
is modelled as always present. -/
structure IdEntry where
  curie : Option String
  iri : String
deriving Repr, DecidableEq

/-- The parsed JSON body of a successful API response: `response["data"]["existing_ids"]`. -/
structure ApiResponse where
  existing_ids : List IdEntry
deriving Repr, DecidableEq

/-- The local `api_key.json` file: its `api_key` and `_comment` fields.
`get_api_response` re-reads this file on every call, which the embedding
renders by passing the file's current contents to every call. -/
structure Credentials where
  api_key : String
  comment : String
deriving Repr, DecidableEq

/-- Outcome of the `requests.get` + `raise_for_status()` pair:
  * `success resp` — 2xx answer with parsed JSON body `resp`;
  * `httpError m` — `raise_for_status()` raised `requests.exceptions.HTTPError`;
  * `transportError m` — `requests.get` itself raised a transport-level
    exception (`ConnectionError`, `Timeout`, ...), which is NOT a subclass of
    `requests.exceptions.HTTPError`. -/
inductive HttpResult where
  | success (resp : ApiResponse)
  | httpError (m : String)
  | transportError (m : String)
deriving Repr, DecidableEq

/-- The marker the source computes as `"ILX:".upper()`. -/
def ilxMarker : String := pyUpper "ILX:"

/-- The Python test `"curie" in i and "ILX:".upper() in i["curie"]`. -/
def curieMatches (i : IdEntry) : Bool :=
  match i.curie with
  | some c => strContainsSub c ilxMarker
  | none => false

/-- The loop `for i in ...: match = i["iri"] if ... else match` starting from
`match = str()`: each matching entry overwrites `match`. -/
def matchFromIds (ids : List IdEntry) : String :=
  ids.foldl (fun acc i => if curieMatches i then i.iri else acc) ""

/-- Embedding of `get_api_response(term)`.  The credentials are the contents
of `api_key.json` read at call time, `http` is the outcome of the HTTP call.
`Except.error` models an exception that escapes the function (the empty-key
`_raise_error` happens before the `try` block; transport-level exceptions are
not matched by the `except requests.exceptions.HTTPError` clause), while
`Except.ok none` models the caught-and-logged `HTTPError` path, which falls
off the end of the function and returns Python `None`. -/
def get_api_response (creds : Credentials) (http : HttpResult) :
    Except String (Option String) :=
  if creds.api_key = "" then Except.error creds.comment
  else
    match http with
    | HttpResult.success resp =>
        if resp.existing_ids.isEmpty then Except.ok (some "no match found")
        else Except.ok (some (matchFromIds resp.existing_ids))
    | HttpResult.httpError _ => Except.ok none
    | HttpResult.transportError m => Except.error ("transport:" ++ m)

/-- Written from the amended wording of the selection rule: the IRI of the
LAST entry of `existing_ids` whose `curie` contains `"ILX:"` (case-sensitive
substring test), or the empty string when no entry matches. -/
def lastIlxIri (ids : List IdEntry) : String :=
  match ids.reverse.find? curieMatches with
  | some e => e.iri
  | none => ""

/-! ### JSON values and Python dicts -/

/-- A JSON value, as produced by `json.load` / consumed by `json.dump`. -/
inductive JVal where
  | jnull
  | jbool (b : Bool)
  | jnum (n : Int)
  | jstr (s : String)
  | jarr (xs : List JVal)
  | jobj (fields : List (String × JVal))
deriving Repr

/-- A Python dict of JSON values: an insertion-ordered association list with
pairwise-distinct keys. -/
abbrev JDict := List (String × JVal)

/-- Python `d[k] = v`: replace in place when the key exists, append otherwise. -/
def dictSet (d : JDict) (k : String) (v : JVal) : JDict :=
  if d.any (fun p => p.1 = k) then
    d.map (fun p => if p.1 = k then (k, v) else p)
  else d ++ [(k, v)]

/-- Python `d[k]` / `k in d`: the value stored under `k`, if any. -/
def dictGet (d : JDict) (k : String) : Option JVal :=
  (d.find? (fun p => p.1 = k)).map Prod.snd

/-- The value `get_api_response` hands back to the caller, as stored by
`jsonld_description["sameAs"] = ...`: Python `None` becomes JSON `null`. -/
def optToJVal : Option String → JVal
  | none => JVal.jnull
  | some s => JVal.jstr s

/-! ### Filename sanitization -/

/-- Python `str.isalnum()` for ASCII characters. -/
def pyIsAlnum (c : Char) : Bool := c.isAlphanum

/-- Python `s.replace(" ", "")`: delete every space character (code 32). -/
def replaceSpace (s : String) : String :=
  String.mk (s.toList.filter (fun c => !(c = Char.ofNat 32)))

/-- The source expression
`"".join(x for x in term.title().replace(" ", "") if x.isalnum())`. -/
def filenameOf (term : String) : String :=
  String.mk ((replaceSpace (pyTitle term)).toList.filter pyIsAlnum)

/-! ### `generate_jsonld_files` -/

/-- One `json.dump` call: the target path (directory = report key under the
working directory, file = sanitized name plus the `.jsonld` suffix added by
the f-string) and the document written. A later write to the same `(dir, file)`
silently overwrites an earlier one. -/
structure FileWrite where
  dir : String
  file : String
  content : JDict
deriving Repr

/-- One property's slot in the report dict: `{"count": ..., "values": [...]}`. -/
structure ReportEntry where
  count : Nat
  values : List String
deriving Repr, DecidableEq

/-- A report: Python dict from property key to entry, insertion-ordered. -/
abbrev Report := List (String × ReportEntry)

/-- Python `set.add` on the duplicate-free-list model of a set. -/
def setInsert (s : List String) (x : String) : List String :=
  if x ∈ s then s else s ++ [x]

/-- The inner loop of `generate_jsonld_files` over `value["values"]`, threading
the `terms_counter` key set. Produces the writes of this property (in order)
and the updated counter keys; `Except.error` is an exception escaping
`get_api_response` (empty API key, transport-level failure). -/
def processTerms (template : JDict) (creds : Credentials)
    (http : String → HttpResult) (key : String) (use_api : Bool) :
    List String → List String → Except String (List FileWrite × List String)
  | counter, [] => Except.ok ([], counter)
  | counter, term :: rest => do
      let counter := setInsert counter (pyLower term)
      let desc := dictSet template "label" (JVal.jstr (pyLower term))
      let desc ←
        if use_api then do
          let r ← get_api_response creds (http (pyLower term))
          pure (dictSet desc "sameAs" (optToJVal r))
        else pure desc
      let (ws, counter) ← processTerms template creds http key use_api counter rest
      Except.ok (⟨key, filenameOf term, desc⟩ :: ws, counter)

/-- The outer loop of `generate_jsonld_files` over `report.items()`. -/
def processReport (template : JDict) (creds : Credentials)
    (http : String → HttpResult) (use_api : Bool) :
    List String → Report → Except String (List FileWrite × List String)
  | counter, [] => Except.ok ([], counter)
  | counter, (key, entry) :: rest => do
      let (ws, counter) ← processTerms template creds http key use_api counter entry.values
      let (ws2, counter) ← processReport template creds http use_api counter rest
      Except.ok (ws ++ ws2, counter)

/-- Embedding of `generate_jsonld_files(report, use_api)`.  `template` is the
module-level `JSONLD_TEMPLATE` (deep-copied per term; copying is the identity
in the pure model), `creds` the current contents of `api_key.json`, `http` the
network oracle giving the HTTP outcome per lowercased term.  On success the
result carries: the ordered list of file writes, the printed number
`len(terms_counter.keys())`, and the Python return value of the function —
which is `None`, rendered `none`, since the source ends in a bare `return`. -/
def generate_jsonld_files (template : JDict) (creds : Credentials)
    (http : String → HttpResult) (report : Report) (use_api : Bool) :
    Except String (List FileWrite × Nat × Option Nat) :=
  (processReport template creds http use_api [] report).map
    (fun r => (r.1, r.2.length, none))

/-- The number of distinct `(dir, file)` targets among a list of writes: the
number of files actually present on disk afterwards. -/
def distinctPathCount (ws : List FileWrite) : Nat :=
  ((ws.map (fun w => (w.dir, w.file))).foldl
    (fun acc x => if x ∈ acc then acc else acc ++ [x]) []).length


/-! ### Spec-side descriptions of the generator output (lookup disabled) -/

/-- The writes `generate_jsonld_files` performs with the lookup disabled, read
off the source loop: one file per `(key, term)` pair, in report order. -/
def noApiWrites (template : JDict) : Report → List FileWrite
  | [] => []
  | (key, e) :: rest =>
      e.values.map (fun t =>
        ⟨key, filenameOf t, dictSet template "label" (JVal.jstr (pyLower t))⟩)
        ++ noApiWrites template rest

/-- All terms of the report, lowercased, in iteration order. -/
def lowerTermsOf : Report → List String
  | [] => []
  | (_, e) :: rest => e.values.map pyLower ++ lowerTermsOf rest

/-- `len(terms_counter.keys())`: the number of distinct lowercased terms
across all properties. -/
def distinctLowerCount (report : Report) : Nat :=
  ((lowerTermsOf report).foldl setInsert []).length

/-! ### Byte-level serialization (`json.dump(..., indent=4, ensure_ascii=False)`) -/

/-- JSON string escaping for the characters our data can contain: quote and
backslash get a backslash prefix (codes 34 and 92). -/
def jsonEscape (s : String) : String :=
  String.join (s.toList.map (fun c =>
    if c = Char.ofNat 34 || c = Char.ofNat 92 then String.mk [Char.ofNat 92, c]
    else String.singleton c))

/-- A JSON string literal: `"` ++ escaped text ++ `"`. -/
def jstrQuote (s : String) : String :=
  String.singleton (Char.ofNat 34) ++ jsonEscape s ++ String.singleton (Char.ofNat 34)

/-- `4 * lvl` spaces, the `indent=4` prefix at nesting depth `lvl`. -/
def indentStr (lvl : Nat) : String :=
  String.mk (List.replicate (4 * lvl) (Char.ofNat 32))

mutual

/-- The text `json.dump(v, indent=4, ensure_ascii=False)` produces for a value
sitting at nesting depth `lvl`. -/
def jvalDump (lvl : Nat) : JVal → String
  | JVal.jnull => "null"
  | JVal.jbool b => cond b "true" "false"
  | JVal.jnum n => toString n
  | JVal.jstr s => jstrQuote s
  | JVal.jarr [] => "[]"
  | JVal.jarr (x :: xs) =>
      "[\n" ++ String.intercalate ",\n" (jarrDump (lvl + 1) (x :: xs))
        ++ "\n" ++ indentStr lvl ++ "]"
  | JVal.jobj [] => "\x7b\x7d"
  | JVal.jobj (f :: fs) =>
      "\x7b\n" ++ String.intercalate ",\n" (jobjDump (lvl + 1) (f :: fs))
        ++ "\n" ++ indentStr lvl ++ "\x7d"

/-- The lines of an array body, each already indented. -/
def jarrDump (lvl : Nat) : List JVal → List String
  | [] => []
  | x :: xs => (indentStr lvl ++ jvalDump lvl x) :: jarrDump lvl xs

/-- The lines of an object body, each already indented. -/
def jobjDump (lvl : Nat) : List (String × JVal) → List String
  | [] => []
  | (k, v) :: fs => (indentStr lvl ++ jstrQuote k ++ ": " ++ jvalDump lvl v) :: jobjDump lvl fs

end

/-- The bytes of one generated `.jsonld` file. -/
def fileBytes (w : FileWrite) : String := jvalDump 0 (JVal.jobj w.content)

/-! ### `collect_values` -/

/-- One element of the required `types` list of a DATS file: each of the four
datatype sub-schemas is optional, and when present carries its `"value"`. -/
structure TypeEntry where
  information : Option String
  method : Option String
  platform : Option String
  instrument : Option String
deriving Repr, DecidableEq

/-- One element of the optional `isAbout` list: `"name"` wins over `"value"`,
entries with neither are skipped. -/
structure IsAboutEntry where
  name : Option String
  value : Option String
deriving Repr, DecidableEq

/-- One element of the required `distributions` list: the `formats` key is
optional. -/
structure DistEntry where
  formats : Option (List String)
deriving Repr, DecidableEq

/-- A parsed `DATS.json` document, restricted to the fields the script reads.
`privacy` and `isAbout` are optional; `types`, `licenses`, `distributions` and
`keywords` are required by the script (a `KeyError` on malformed data is
outside this model, which types descriptor files as well-formed). -/
structure DatsData where
  privacy : Option String
  types : List TypeEntry
  licenses : List String
  isAbout : Option (List IsAboutEntry)
  distributions : List DistEntry
  keywords : List String
deriving Repr, DecidableEq

/-- The six keyword arguments of `collect_values`. -/
structure Flags where
  privacy : Bool
  types : Bool
  licenses : Bool
  is_about : Bool
  formats : Bool
  keywords : Bool
deriving Repr, DecidableEq

/-- A directory of the projects tree: named files (with parsed content for the
descriptor files) and subdirectories. -/
inductive Dir where
  | mk (files : List (String × DatsData)) (subdirs : List Dir)

/-- The named files of a directory. -/
def Dir.files : Dir → List (String × DatsData)
  | Dir.mk fs _ => fs

/-- The subdirectories of a directory. -/
def Dir.subdirs : Dir → List Dir
  | Dir.mk _ subs => subs

/-- The Python test `"DATS.json" in files`. -/
def hasDats (d : Dir) : Bool := d.files.any (fun f => f.1 = "DATS.json")

/-- The content of the directory's `DATS.json`, when the file exists. -/
def datsOf (d : Dir) : Option DatsData :=
  (d.files.find? (fun f => f.1 = "DATS.json")).map Prod.snd

mutual

/-- `os.walk` top-down: the root first, then each subtree in order. -/
def walkDirs : Dir → List Dir
  | Dir.mk fs subs => Dir.mk fs subs :: walkDirsList subs

/-- `os.walk` over a list of sibling subtrees. -/
def walkDirsList : List Dir → List Dir
  | [] => []
  | d :: ds => walkDirs d ++ walkDirsList ds

end

/-- The six accumulating sets and the file counter of `collect_values`. -/
structure CollectState where
  privacy_values : List String
  licenses_values : List String
  types_datatype_values : List String
  is_about_values : List String
  distributions_formats : List String
  keywords_values : List String
  dats_files_count : Nat
deriving Repr, DecidableEq

/-- The state at the top of `collect_values`: six empty sets, counter zero. -/
def initCollectState : CollectState := ⟨[], [], [], [], [], [], 0⟩

/-- Python `set.update(xs)` on the duplicate-free-list model. -/
def setUpdate (s : List String) (xs : List String) : List String :=
  xs.foldl setInsert s

/-- `[typ[t]["value"] for t in ["information","method","platform","instrument"] if t in typ]`. -/
def typeValues (t : TypeEntry) : List String :=
  [t.information, t.method, t.platform, t.instrument].filterMap id

/-- The `isAbout` branch: `"name"` preferred, else `"value"`, else skip. -/
def isAboutValue (e : IsAboutEntry) : Option String :=
  match e.name with
  | some n => some n
  | none => e.value

/-- The `privacy` block: `if privacy and "privacy" in dats_data: ... .add(...)`. -/
def updPrivacy (fl : Flags) (d : DatsData) (st : CollectState) : CollectState :=
  if fl.privacy then
    match d.privacy with
    | some p => { st with privacy_values := setInsert st.privacy_values p }
    | none => st
  else st

/-- The `types` block: for each element of the required `types` list, update
the set with the values of the sub-schemas present. -/
def updTypes (fl : Flags) (d : DatsData) (st : CollectState) : CollectState :=
  if fl.types then
    { st with types_datatype_values :=
        d.types.foldl (fun acc typ => setUpdate acc (typeValues typ)) st.types_datatype_values }
  else st

/-- The `licenses` block: update the set with each entry's `name`. -/
def updLicenses (fl : Flags) (d : DatsData) (st : CollectState) : CollectState :=
  if fl.licenses then
    { st with licenses_values := setUpdate st.licenses_values d.licenses }
  else st

/-- The `isAbout` block: `"name"` preferred, else `"value"`, else `pass`. -/
def updIsAbout (fl : Flags) (d : DatsData) (st : CollectState) : CollectState :=
  if fl.is_about then
    match d.isAbout with
    | some entries =>
        { st with is_about_values :=
            entries.foldl (fun acc e =>
              match isAboutValue e with
              | some v => setInsert acc v
              | none => acc) st.is_about_values }
    | none => st
  else st

/-- The `distributions` block: update the set with each entry's optional
`formats` list. -/
def updFormats (fl : Flags) (d : DatsData) (st : CollectState) : CollectState :=
  if fl.formats then
    { st with distributions_formats :=
        d.distributions.foldl (fun acc dist =>
          match dist.formats with
          | some fs => setUpdate acc fs
          | none => acc) st.distributions_formats }
  else st

/-- The `keywords` block: update the set with each entry's `value`. -/
def updKeywords (fl : Flags) (d : DatsData) (st : CollectState) : CollectState :=
  if fl.keywords then
    { st with keywords_values := setUpdate st.keywords_values d.keywords }
  else st

/-- The body of the `with open(dats_file)` block: fold one parsed `DATS.json`
into the accumulating sets by running the six property blocks in source
order. -/
def processDats (fl : Flags) (st : CollectState) (d : DatsData) : CollectState :=
  updKeywords fl d (updFormats fl d (updIsAbout fl d (updLicenses fl d
    (updTypes fl d (updPrivacy fl d st)))))

/-- One iteration of the `os.walk` loop: when the directory holds a
`DATS.json`, bump the counter and fold the file in; otherwise skip. -/
def collectStep (fl : Flags) (st : CollectState) (d : Dir) : CollectState :=
  match datsOf d with
  | some data => processDats fl { st with dats_files_count := st.dats_files_count + 1 } data
  | none => st

/-- The `report` dict assembled at the end of `collect_values`: the
`zip`-driven loop unrolled over its six fixed key/set pairs; a pair
contributes only when its set is non-empty. -/
def buildReport (st : CollectState) : Report :=
  (if st.privacy_values.isEmpty then [] else
    [("privacy", ⟨st.privacy_values.length, st.privacy_values⟩)])
  ++ (if st.licenses_values.isEmpty then [] else
    [("licenses", ⟨st.licenses_values.length, st.licenses_values⟩)])
  ++ (if st.types_datatype_values.isEmpty then [] else
    [("types", ⟨st.types_datatype_values.length, st.types_datatype_values⟩)])
  ++ (if st.is_about_values.isEmpty then [] else
    [("is_about", ⟨st.is_about_values.length, st.is_about_values⟩)])
  ++ (if st.distributions_formats.isEmpty then [] else
    [("formats", ⟨st.distributions_formats.length, st.distributions_formats⟩)])
  ++ (if st.keywords_values.isEmpty then [] else
    [("keywords", ⟨st.keywords_values.length, st.keywords_values⟩)])

/-- Embedding of `collect_values(...)`: walk the projects tree, fold every
`DATS.json` into the state, and return the report plus the file count. -/
def collect_values (fl : Flags) (root : Dir) : Report × Nat :=
  let st := (walkDirs root).foldl (collectStep fl) initCollectState
  (buildReport st, st.dats_files_count)

/-- The six accumulating sets hold pairwise-distinct elements (Python `set`). -/
def NodupState (st : CollectState) : Prop :=
  st.privacy_values.Nodup ∧ st.licenses_values.Nodup
    ∧ st.types_datatype_values.Nodup ∧ st.is_about_values.Nodup
    ∧ st.distributions_formats.Nodup ∧ st.keywords_values.Nodup

mutual

/-- The number of directories of the tree holding a file named `DATS.json`. -/
def countDatsDirs : Dir → Nat
  | Dir.mk fs subs =>
      (cond (hasDats (Dir.mk fs subs)) 1 0) + countDatsDirsList subs

/-- `countDatsDirs` summed over sibling subtrees. -/
def countDatsDirsList : List Dir → Nat
  | [] => 0
  | d :: ds => countDatsDirs d + countDatsDirsList ds

end

/-! ### `find_duplicates` -/

/-- One step of the grouping loop: append `t` to the bucket of `t.lower()`,
creating the bucket at the end on first sight (Python dict insertion order). -/
def addTerm : List (String × List String) → String → List (String × List String)
  | [], t => [(pyLower t, [t])]
  | (k, v) :: rest, t =>
      if k = pyLower t then (k, v ++ [t]) :: rest
      else (k, v) :: addTerm rest t

/-- The `normilized_terms` dict built from the property's values. -/
def normalizeTerms (terms : List String) : List (String × List String) :=
  terms.foldl addTerm []

/-- A single-quote character, for Python `repr` of strings. -/
def pyQuote : String := String.singleton (Char.ofNat 39)

/-- Python `repr` of one of our strings (no embedded quotes in the data). -/
def pyReprStr (s : String) : String := pyQuote ++ s ++ pyQuote

/-- Python `f"{v}"` for a list of strings: `repr` items, comma-space
separated, in square brackets. -/
def pyReprStrList (xs : List String) : String :=
  "[" ++ String.intercalate ", " (xs.map pyReprStr) ++ "]"

/-- The message `f"{key.title()} duplicate terms: {v}"`. -/
def dupMessage (key : String) (v : List String) : String :=
  pyTitle key ++ " duplicate terms: " ++ pyReprStrList v

/-- The per-property body of `find_duplicates`: group the values by lowercase;
if the reported count equals the number of groups, log and emit nothing, else
emit one message per group of two or more. -/
def dupMessagesFor (key : String) (e : ReportEntry) : List String :=
  let m := normalizeTerms e.values
  if e.count = m.length then []
  else (m.filter (fun p => 1 < p.2.length)).map (fun p => dupMessage key p.2)

/-- Python `key in report` / `report[key]` on the association-list model. -/
def reportGet (report : Report) (k : String) : Option ReportEntry :=
  (report.find? (fun p => p.1 = k)).map Prod.snd

/-- Embedding of `find_duplicates(report)`: visit the six known keys in the
source's order, skipping absent ones, and concatenate the messages. -/
def find_duplicates (report : Report) : List String :=
  ["privacy", "licenses", "types", "is_about", "formats", "keywords"].foldl
    (fun errs key =>
      match reportGet report key with
      | some e => errs ++ dupMessagesFor key e
      | none => errs) []

/-- Total number of raw values held in the grouping dict's buckets. -/
def bucketSizes (m : List (String × List String)) : Nat :=
  (m.map (fun p => p.2.length)).sum

/-! ### Helper lemmas: `get_api_response` case analysis -/

theorem foldl_overwrite_eq_last (ids : List IdEntry) (acc : String) :
    ids.foldl (fun a i => if curieMatches i then i.iri else a) acc =
      (match ids.reverse.find? curieMatches with
       | some e => e.iri
       | none => acc) := by
  induction ids generalizing acc with
  | nil => rfl
  | cons i ids ih =>
      simp only [List.foldl_cons, List.reverse_cons, List.find?_append]
      rw [ih]
      cases h : ids.reverse.find? curieMatches with
      | some e => simp
      | none =>
          simp only [Option.none_or]
          cases hm : curieMatches i <;> simp [List.find?, hm]

theorem matchFromIds_eq_lastIlxIri (ids : List IdEntry) :
    matchFromIds ids = lastIlxIri ids := by
  unfold matchFromIds lastIlxIri
  rw [foldl_overwrite_eq_last]

theorem dictGet_dictSet (d : JDict) (k : String) (v : JVal) :
    dictGet (dictSet d k v) k = some v := by
  unfold dictGet dictSet
  by_cases h : d.any (fun p => p.1 = k)
  · simp only [h, if_true]
    induction d with
    | nil => simp at h
    | cons p d ih =>
        simp only [List.any_cons, Bool.or_eq_true, decide_eq_true_eq] at h
        by_cases hp : p.1 = k
        · simp only [List.map_cons, if_pos hp]
          rw [List.find?_cons_of_pos _ (by simp)]
          rfl
        · have hd : d.any (fun p => p.1 = k) = true := by
            rcases h with h | h
            · exact absurd h hp
            · exact h
          simp only [List.map_cons, if_neg hp]
          rw [List.find?_cons_of_neg _ (by simpa using hp)]
          exact ih hd
  · simp only [h, if_false]
    have hnone : d.find? (fun p => p.1 = k) = none := by
      rw [List.find?_eq_none]
      intro x hx
      simp only [List.any_eq_true] at h
      exact fun hxk => h ⟨x, hx, hxk⟩
    simp [List.find?_append, hnone, List.find?]

theorem get_api_response_emptyKey (creds : Credentials) (http : HttpResult)
    (h : creds.api_key = "") :
    get_api_response creds http = Except.error creds.comment := by
  unfold get_api_response
  rw [if_pos h]

theorem get_api_response_httpError (creds : Credentials) (m : String)
    (h : creds.api_key ≠ "") :
    get_api_response creds (HttpResult.httpError m) = Except.ok none := by
  unfold get_api_response
  rw [if_neg h]

theorem get_api_response_transportError (creds : Credentials) (m : String)
    (h : creds.api_key ≠ "") :
    get_api_response creds (HttpResult.transportError m) =
      Except.error ("transport:" ++ m) := by
  unfold get_api_response
  rw [if_neg h]

theorem get_api_response_success (creds : Credentials) (resp : ApiResponse)
    (h : creds.api_key ≠ "") :
    get_api_response creds (HttpResult.success resp) =
      Except.ok (some (if resp.existing_ids.isEmpty then "no match found"
        else matchFromIds resp.existing_ids)) := by
  unfold get_api_response
  rw [if_neg h]
  cases hi : resp.existing_ids.isEmpty <;> simp [hi]

theorem matchFromIds_of_no_match (ids : List IdEntry)
    (h : ids.all (fun i => !curieMatches i) = true) : matchFromIds ids = "" := by
  rw [matchFromIds_eq_lastIlxIri]
  unfold lastIlxIri
  have hn : ids.reverse.find? curieMatches = none := by
    rw [List.find?_eq_none]
    intro x hx
    simp only [List.all_eq_true, Bool.not_eq_true'] at h
    simp [h x (List.mem_reverse.mp hx)]
  rw [hn]

/-! ### Helper lemmas: the generator with the lookup disabled -/

theorem processTerms_noApi (template : JDict) (creds : Credentials)
    (http : String → HttpResult) (key : String) (terms : List String)
    (counter : List String) :
    processTerms template creds http key false counter terms =
      Except.ok
        (terms.map (fun t =>
          ⟨key, filenameOf t, dictSet template "label" (JVal.jstr (pyLower t))⟩),
         terms.foldl (fun acc t => setInsert acc (pyLower t)) counter) := by
  induction terms generalizing counter with
  | nil => rfl
  | cons t rest ih =>
      simp only [processTerms, ih]
      rfl

theorem processReport_noApi (template : JDict) (creds : Credentials)
    (http : String → HttpResult) (report : Report) (counter : List String) :
    processReport template creds http false counter report =
      Except.ok (noApiWrites template report,
                 (lowerTermsOf report).foldl setInsert counter) := by
  induction report generalizing counter with
  | nil => rfl
  | cons kv rest ih =>
      obtain ⟨key, e⟩ := kv
      simp only [processReport, processTerms_noApi, ih, noApiWrites, lowerTermsOf,
        List.foldl_append, List.foldl_map]
      rfl

theorem generate_noApi_eq (template : JDict) (creds : Credentials)
    (http : String → HttpResult) (report : Report) :
    generate_jsonld_files template creds http report false =
      Except.ok (noApiWrites template report, distinctLowerCount report, none) := by
  unfold generate_jsonld_files distinctLowerCount
  rw [processReport_noApi]
  rfl

/-! ### Claims C1 and C10: response parsing -/

/-- C1, counterexample.  With two ILX entries present the function returns the
iri of the SECOND (last) one, not the first; and a lowercase `ilx:` curie is
not matched (the substring test `"ILX:" in curie` is case-sensitive), giving
the empty string instead of the claimed first-match iri. -/
theorem C1_counterexample :
    get_api_response ⟨"k", "c"⟩
        (HttpResult.success ⟨[⟨some "ILX:1", "iriA"⟩, ⟨some "ILX:2", "iriB"⟩]⟩) =
      Except.ok (some "iriB")
    ∧ get_api_response ⟨"k", "c"⟩
        (HttpResult.success ⟨[⟨some "ilx:9", "iriC"⟩]⟩) =
      Except.ok (some "") := by
  constructor <;> rfl

/-- C1, amended.  On a successful lookup with a non-empty API key,
`get_api_response` parses `data.existing_ids`; when the list is non-empty it
returns the iri of the LAST entry whose `curie` contains `"ILX:"` as a
case-SENSITIVE substring (the empty string when no entry matches), and it
returns the sentinel `"no match found"` exactly when the list is empty. -/
theorem C1_amended (creds : Credentials) (resp : ApiResponse)
    (h : creds.api_key ≠ "") :
    get_api_response creds (HttpResult.success resp) =
      Except.ok (some (if resp.existing_ids.isEmpty then "no match found"
        else lastIlxIri resp.existing_ids)) := by
  rw [get_api_response_success creds resp h, matchFromIds_eq_lastIlxIri]

/-- Witness for `C1_amended` at a concrete credentials file and response. -/
theorem C1_amended_witness :
    get_api_response ⟨"k", "c"⟩
        (HttpResult.success ⟨[⟨some "ILX:9", "iriA"⟩]⟩) =
      Except.ok (some "iriA") :=
  (C1_amended ⟨"k", "c"⟩ ⟨[⟨some "ILX:9", "iriA"⟩]⟩ (by decide)).trans (by rfl)

/-- C10, confirmed.  When the lookup succeeds, `existing_ids` is non-empty and
no entry's `curie` contains `"ILX:"`, the function returns the empty string —
neither the sentinel nor an absent value — and the generated descriptor's
`sameAs` field is set to the empty string. -/
theorem C10_empty_string_match (creds : Credentials) (resp : ApiResponse)
    (template : JDict) (key term : String)
    (h : creds.api_key ≠ "") (h2 : resp.existing_ids ≠ [])
    (h3 : resp.existing_ids.all (fun i => !curieMatches i) = true) :
    get_api_response creds (HttpResult.success resp) = Except.ok (some "")
    ∧ generate_jsonld_files template creds (fun _ => HttpResult.success resp)
        [(key, ⟨1, [term]⟩)] true =
      Except.ok
        ([⟨key, filenameOf term,
           dictSet (dictSet template "label" (JVal.jstr (pyLower term)))
             "sameAs" (JVal.jstr "")⟩], 1, none) := by
  have hne : resp.existing_ids.isEmpty = false := by
    cases hx : resp.existing_ids with
    | nil => exact absurd hx h2
    | cons a l => rfl
  have hresp : get_api_response creds (HttpResult.success resp) =
      Except.ok (some "") := by
    rw [get_api_response_success creds resp h, hne]
    simp [matchFromIds_of_no_match resp.existing_ids h3]
  refine ⟨hresp, ?_⟩
  unfold generate_jsonld_files
  simp only [processReport, processTerms, hresp]
  rfl

/-- Witness for `C10_empty_string_match` at a concrete response whose single
entry has a non-ILX curie. -/
theorem C10_witness :
    get_api_response ⟨"k", "c"⟩
        (HttpResult.success ⟨[⟨some "SCR:1", "iriX"⟩]⟩) = Except.ok (some "")
    ∧ generate_jsonld_files [] ⟨"k", "c"⟩
        (fun _ => HttpResult.success ⟨[⟨some "SCR:1", "iriX"⟩]⟩)
        [("privacy", ⟨1, ["Open"]⟩)] true =
      Except.ok
        ([⟨"privacy", filenameOf "Open",
           dictSet (dictSet [] "label" (JVal.jstr (pyLower "Open")))
             "sameAs" (JVal.jstr "")⟩], 1, none) :=
  C10_empty_string_match ⟨"k", "c"⟩ ⟨[⟨some "SCR:1", "iriX"⟩]⟩ [] "privacy" "Open"
    (by decide) (by decide) (by decide)

/-! ### Claim C2: error handling of the lookup call -/

/-- C2, counterexample.  An HTTP error (from `raise_for_status`) is indeed
caught and the run continues, but the written descriptor then carries
`"sameAs": null` — the field is present with a null value, not absent.  A
transport-level error is NOT caught: it escapes `generate_jsonld_files` and
aborts the run, producing no descriptor at all. -/
theorem C2_counterexample :
    generate_jsonld_files [] ⟨"k", "c"⟩ (fun _ => HttpResult.httpError "500")
        [("privacy", ⟨1, ["x"]⟩)] true =
      Except.ok
        ([⟨"privacy", "X", [("label", JVal.jstr "x"), ("sameAs", JVal.jnull)]⟩],
         1, none)
    ∧ generate_jsonld_files [] ⟨"k", "c"⟩
        (fun _ => HttpResult.transportError "conn")
        [("privacy", ⟨1, ["x"]⟩)] true =
      Except.error "transport:conn" := by
  constructor <;> rfl

/-- C2, amended.  Only `requests.exceptions.HTTPError` (raised by the status
check) is caught and logged: the run then continues and the descriptor written
for the term has its `sameAs` field PRESENT with a null value (the caught
branch returns Python `None`, which is assigned and serialized as JSON
`null`).  A transport-level error is not caught and aborts the run. -/
theorem C2_amended (creds : Credentials) (template : JDict) (key term m : String)
    (h : creds.api_key ≠ "") :
    get_api_response creds (HttpResult.httpError m) = Except.ok none
    ∧ generate_jsonld_files template creds (fun _ => HttpResult.httpError m)
        [(key, ⟨1, [term]⟩)] true =
      Except.ok
        ([⟨key, filenameOf term,
           dictSet (dictSet template "label" (JVal.jstr (pyLower term)))
             "sameAs" JVal.jnull⟩], 1, none)
    ∧ dictGet (dictSet (dictSet template "label" (JVal.jstr (pyLower term)))
        "sameAs" JVal.jnull) "sameAs" = some JVal.jnull
    ∧ get_api_response creds (HttpResult.transportError m) =
        Except.error ("transport:" ++ m) := by
  refine ⟨get_api_response_httpError creds m h, ?_,
    dictGet_dictSet _ _ _, get_api_response_transportError creds m h⟩
  unfold generate_jsonld_files
  simp only [processReport, processTerms, get_api_response_httpError creds m h]
  rfl

/-- Witness for `C2_amended` at a concrete credentials file and report. -/
theorem C2_amended_witness :
    get_api_response ⟨"k", "c"⟩ (HttpResult.httpError "500") = Except.ok none
    ∧ generate_jsonld_files [] ⟨"k", "c"⟩ (fun _ => HttpResult.httpError "500")
        [("privacy", ⟨1, ["x"]⟩)] true =
      Except.ok
        ([⟨"privacy", filenameOf "x",
           dictSet (dictSet [] "label" (JVal.jstr (pyLower "x")))
             "sameAs" JVal.jnull⟩], 1, none)
    ∧ dictGet (dictSet (dictSet [] "label" (JVal.jstr (pyLower "x")))
        "sameAs" JVal.jnull) "sameAs" = some JVal.jnull
    ∧ get_api_response ⟨"k", "c"⟩ (HttpResult.transportError "500") =
        Except.error ("transport:" ++ "500") :=
  C2_amended ⟨"k", "c"⟩ [] "privacy" "x" "500" (by decide)

/-! ### Claim C3: filename sanitization -/

/-- C3, counterexample.  The term `"CC-BY 4.0"` does NOT produce the filename
`Cc-By40`: the `isalnum` filter removes the hyphen along with the space and
the period, so the filename is `CcBy40`. -/
theorem C3_counterexample :
    filenameOf "CC-BY 4.0" = "CcBy40" ∧ filenameOf "CC-BY 4.0" ≠ "Cc-By40" := by
  constructor <;> decide

/-- C3, amended.  The output filename is computed by title-casing the value,
stripping spaces, and removing non-alphanumeric characters; the term
`"CC-BY 4.0"` produces the filename `CcBy40` — the hyphen, being
non-alphanumeric, is stripped along with the space and the period. -/
theorem C3_amended :
    filenameOf "CC-BY 4.0" = "CcBy40"
    ∧ generate_jsonld_files [] ⟨"k", "c"⟩ (fun _ => HttpResult.httpError "e")
        [("licenses", ⟨1, ["CC-BY 4.0"]⟩)] false =
      Except.ok
        ([⟨"licenses", "CcBy40", [("label", JVal.jstr "cc-by 4.0")]⟩], 1, none) := by
  constructor
  · decide
  · rfl

/-! ### Claim C4: what the generator returns and reports -/

/-- C4, counterexample.  The Python function ends in a bare `return`: its
return value is `None` (third component `none` below), not a count of files.
Moreover the number it prints, `len(terms_counter.keys())`, is `1` here (one
distinct case-insensitive term) while two files are written (`privacy/Male`
and `keywords/Male`), so the printed number is not the count of files written
either. -/
theorem C4_counterexample :
    generate_jsonld_files [] ⟨"k", "c"⟩ (fun _ => HttpResult.httpError "e")
        [("privacy", ⟨1, ["Male"]⟩), ("keywords", ⟨1, ["male"]⟩)] false =
      Except.ok
        ([⟨"privacy", "Male", [("label", JVal.jstr "male")]⟩,
          ⟨"keywords", "Male", [("label", JVal.jstr "male")]⟩], 1, none)
    ∧ distinctPathCount
        [⟨"privacy", "Male", [("label", JVal.jstr "male")]⟩,
         ⟨"keywords", "Male", [("label", JVal.jstr "male")]⟩] = 2
    ∧ (1 : Nat) ≠ 2 := by
  refine ⟨by rfl, by rfl, by decide⟩

/-- C4, amended.  `generate_jsonld_files` returns `None`; the count it reports
is PRINTED, not returned, and that printed number is the total number of
distinct case-insensitive terms across all properties — which need not equal
the number of files written. -/
theorem C4_amended (template : JDict) (creds : Credentials)
    (http : String → HttpResult) (report : Report) :
    generate_jsonld_files template creds http report false =
      Except.ok (noApiWrites template report, distinctLowerCount report, none) :=
  generate_noApi_eq template creds http report

/-! ### Claim C9: idempotence with the lookup disabled -/

/-- C9, confirmed.  With the lookup disabled the generator's output depends
only on the template and the report: two runs — even against different
credential files and network conditions — produce identical write lists, and
hence byte-identical serialized files. -/
theorem C9_idempotent (template : JDict) (creds₁ creds₂ : Credentials)
    (http₁ http₂ : String → HttpResult) (report : Report) :
    generate_jsonld_files template creds₁ http₁ report false =
      generate_jsonld_files template creds₂ http₂ report false
    ∧ (generate_jsonld_files template creds₁ http₁ report false).map
        (fun r => r.1.map fileBytes) =
      (generate_jsonld_files template creds₂ http₂ report false).map
        (fun r => r.1.map fileBytes) := by
  have h := (generate_noApi_eq template creds₁ http₁ report).trans
    (generate_noApi_eq template creds₂ http₂ report).symm
  exact ⟨h, by rw [h]⟩

/-! ### Claim C8: missing API key -/

/-- C8, confirmed.  The credentials file is re-read and re-validated on every
call (the embedding passes the file's call-time contents to each call); with
an empty `api_key` the call raises an exception carrying the file's
`_comment` field BEFORE the `try` block, so nothing catches it: the error
escapes `get_api_response`, and a generator run that performs a lookup aborts
with it. -/
theorem C8_empty_key_fatal (creds : Credentials) (http : HttpResult)
    (http2 : String → HttpResult) (template : JDict) (key term : String)
    (cnt : Nat) (rest : List String) (more : Report)
    (h : creds.api_key = "") :
    get_api_response creds http = Except.error creds.comment
    ∧ generate_jsonld_files template creds http2
        ((key, ⟨cnt, term :: rest⟩) :: more) true = Except.error creds.comment := by
  refine ⟨get_api_response_emptyKey creds http h, ?_⟩
  unfold generate_jsonld_files
  simp only [processReport, processTerms, get_api_response_emptyKey _ _ h]
  rfl

/-- Witness for `C8_empty_key_fatal` at a concrete empty-key credentials file. -/
theorem C8_witness :
    get_api_response ⟨"", "provide an API key"⟩ (HttpResult.httpError "e") =
      Except.error "provide an API key"
    ∧ generate_jsonld_files [] ⟨"", "provide an API key"⟩
        (fun _ => HttpResult.httpError "e")
        [("privacy", ⟨1, ["Open"]⟩)] true =
      Except.error "provide an API key" :=
  C8_empty_key_fatal ⟨"", "provide an API key"⟩ (HttpResult.httpError "e")
    (fun _ => HttpResult.httpError "e") [] "privacy" "Open" 1 [] [] (by decide)

/-! ### The collector invariant and file count -/

theorem setInsert_nodup {s : List String} (x : String) (h : s.Nodup) :
    (setInsert s x).Nodup := by
  unfold setInsert
  split
  · exact h
  · next hx =>
      rw [List.nodup_append]
      refine ⟨h, List.nodup_singleton x, ?_⟩
      intro a ha hax
      rw [List.mem_singleton] at hax
      subst hax
      exact hx ha

theorem foldl_nodup_preserve {α : Type} (f : List String → α → List String)
    (hf : ∀ s a, s.Nodup → (f s a).Nodup) :
    ∀ (l : List α) (s : List String), s.Nodup → (l.foldl f s).Nodup
  | [], _, h => h
  | a :: l, s, h => foldl_nodup_preserve f hf l (f s a) (hf s a h)

theorem setUpdate_nodup {s : List String} (xs : List String) (h : s.Nodup) :
    (setUpdate s xs).Nodup :=
  foldl_nodup_preserve setInsert (fun _ a hs => setInsert_nodup a hs) xs s h

theorem updPrivacy_nodup (fl : Flags) (d : DatsData) (st : CollectState)
    (h : NodupState st) : NodupState (updPrivacy fl d st) := by
  obtain ⟨h1, h2, h3, h4, h5, h6⟩ := h
  unfold updPrivacy
  split
  · cases d.privacy
    · exact ⟨h1, h2, h3, h4, h5, h6⟩
    · exact ⟨setInsert_nodup _ h1, h2, h3, h4, h5, h6⟩
  · exact ⟨h1, h2, h3, h4, h5, h6⟩

theorem updTypes_nodup (fl : Flags) (d : DatsData) (st : CollectState)
    (h : NodupState st) : NodupState (updTypes fl d st) := by
  obtain ⟨h1, h2, h3, h4, h5, h6⟩ := h
  unfold updTypes
  split
  · exact ⟨h1, h2,
      foldl_nodup_preserve _ (fun s a hs => setUpdate_nodup _ hs) _ _ h3, h4, h5, h6⟩
  · exact ⟨h1, h2, h3, h4, h5, h6⟩

theorem updLicenses_nodup (fl : Flags) (d : DatsData) (st : CollectState)
    (h : NodupState st) : NodupState (updLicenses fl d st) := by
  obtain ⟨h1, h2, h3, h4, h5, h6⟩ := h
  unfold updLicenses
  split
  · exact ⟨h1, setUpdate_nodup _ h2, h3, h4, h5, h6⟩
  · exact ⟨h1, h2, h3, h4, h5, h6⟩

theorem updIsAbout_nodup (fl : Flags) (d : DatsData) (st : CollectState)
    (h : NodupState st) : NodupState (updIsAbout fl d st) := by
  obtain ⟨h1, h2, h3, h4, h5, h6⟩ := h
  unfold updIsAbout
  split
  · cases d.isAbout with
    | some entries =>
        refine ⟨h1, h2, h3, ?_, h5, h6⟩
        refine foldl_nodup_preserve _ ?_ entries _ h4
        intro s a hs
        cases isAboutValue a
        · exact hs
        · exact setInsert_nodup _ hs
    | none => exact ⟨h1, h2, h3, h4, h5, h6⟩
  · exact ⟨h1, h2, h3, h4, h5, h6⟩

theorem updFormats_nodup (fl : Flags) (d : DatsData) (st : CollectState)
    (h : NodupState st) : NodupState (updFormats fl d st) := by
  obtain ⟨h1, h2, h3, h4, h5, h6⟩ := h
  unfold updFormats
  split
  · refine ⟨h1, h2, h3, h4, ?_, h6⟩
    refine foldl_nodup_preserve _ ?_ d.distributions _ h5
    intro s a hs
    cases a.formats
    · exact hs
    · exact setUpdate_nodup _ hs
  · exact ⟨h1, h2, h3, h4, h5, h6⟩

theorem updKeywords_nodup (fl : Flags) (d : DatsData) (st : CollectState)
    (h : NodupState st) : NodupState (updKeywords fl d st) := by
  obtain ⟨h1, h2, h3, h4, h5, h6⟩ := h
  unfold updKeywords
  split
  · exact ⟨h1, h2, h3, h4, h5, setUpdate_nodup _ h6⟩
  · exact ⟨h1, h2, h3, h4, h5, h6⟩

theorem processDats_nodup (fl : Flags) (st : CollectState) (d : DatsData)
    (h : NodupState st) : NodupState (processDats fl st d) :=
  updKeywords_nodup _ _ _ (updFormats_nodup _ _ _ (updIsAbout_nodup _ _ _
    (updLicenses_nodup _ _ _ (updTypes_nodup _ _ _ (updPrivacy_nodup _ _ _ h)))))

theorem collectStep_nodup (fl : Flags) (st : CollectState) (d : Dir)
    (h : NodupState st) : NodupState (collectStep fl st d) := by
  unfold collectStep
  cases datsOf d with
  | some data => exact processDats_nodup fl _ data h
  | none => exact h

theorem foldl_collectStep_nodup (fl : Flags) :
    ∀ (ds : List Dir) (st : CollectState),
      NodupState st → NodupState (ds.foldl (collectStep fl) st)
  | [], _, h => h
  | d :: ds, st, h =>
      foldl_collectStep_nodup fl ds (collectStep fl st d)
        (collectStep_nodup fl st d h)

theorem initCollectState_nodup : NodupState initCollectState :=
  ⟨List.nodup_nil, List.nodup_nil, List.nodup_nil, List.nodup_nil,
   List.nodup_nil, List.nodup_nil⟩

theorem reportPiece_mem (name : String) (vals : List String) (hn : vals.Nodup)
    (key : String) (e : ReportEntry)
    (h : (key, e) ∈
      (if vals.isEmpty then ([] : Report) else [(name, ⟨vals.length, vals⟩)])) :
    e.count = e.values.length ∧ e.values.Nodup ∧ e.values ≠ [] := by
  by_cases hv : vals.isEmpty
  · rw [if_pos hv] at h
    simp at h
  · rw [if_neg hv] at h
    have he : e = ⟨vals.length, vals⟩ :=
      congrArg Prod.snd (List.mem_singleton.mp h)
    subst he
    refine ⟨rfl, hn, ?_⟩
    intro hnil
    rw [show (ReportEntry.mk vals.length vals).values = vals from rfl] at hnil
    subst hnil
    exact hv rfl

theorem buildReport_mem (st : CollectState) (hst : NodupState st)
    (key : String) (e : ReportEntry) (h : (key, e) ∈ buildReport st) :
    e.count = e.values.length ∧ e.values.Nodup ∧ e.values ≠ [] := by
  obtain ⟨h1, h2, h3, h4, h5, h6⟩ := hst
  unfold buildReport at h
  rcases List.mem_append.mp h with h | h
  rcases List.mem_append.mp h with h | h
  rcases List.mem_append.mp h with h | h
  rcases List.mem_append.mp h with h | h
  rcases List.mem_append.mp h with h | h
  · exact reportPiece_mem _ _ h1 key e h
  · exact reportPiece_mem _ _ h2 key e h
  · exact reportPiece_mem _ _ h3 key e h
  · exact reportPiece_mem _ _ h4 key e h
  · exact reportPiece_mem _ _ h5 key e h
  · exact reportPiece_mem _ _ h6 key e h

/-! ### Claim C5: report well-formedness -/

/-- C5, confirmed.  Every property entry of a report returned by
`collect_values` satisfies: its `count` equals the length of its `values`,
the values are pairwise distinct (set semantics), and the list is non-empty —
a property with no values is omitted from the report entirely. -/
theorem C5_report_invariants (fl : Flags) (root : Dir) (key : String)
    (e : ReportEntry) (h : (key, e) ∈ (collect_values fl root).1) :
    e.count = e.values.length ∧ e.values.Nodup ∧ e.values ≠ [] := by
  unfold collect_values at h
  exact buildReport_mem _
    (foldl_collectStep_nodup fl (walkDirs root) initCollectState
      initCollectState_nodup) key e h

/-- Witness for `C5_report_invariants`: a one-project tree whose `DATS.json`
has privacy `"Open"`, probed at the `privacy` entry of the resulting report. -/
theorem C5_witness :
    (⟨1, ["Open"]⟩ : ReportEntry).count = (⟨1, ["Open"]⟩ : ReportEntry).values.length
    ∧ (⟨1, ["Open"]⟩ : ReportEntry).values.Nodup
    ∧ (⟨1, ["Open"]⟩ : ReportEntry).values ≠ [] :=
  C5_report_invariants ⟨true, true, true, true, true, true⟩
    (Dir.mk [] [Dir.mk [("DATS.json", ⟨some "Open", [], [], none, [], []⟩)] []])
    "privacy" ⟨1, ["Open"]⟩ (by decide)

/-! ### Claim C7: the file count -/

theorem updPrivacy_count (fl : Flags) (d : DatsData) (st : CollectState) :
    (updPrivacy fl d st).dats_files_count = st.dats_files_count := by
  unfold updPrivacy
  split
  · cases d.privacy <;> rfl
  · rfl

theorem updTypes_count (fl : Flags) (d : DatsData) (st : CollectState) :
    (updTypes fl d st).dats_files_count = st.dats_files_count := by
  unfold updTypes
  split <;> rfl

theorem updLicenses_count (fl : Flags) (d : DatsData) (st : CollectState) :
    (updLicenses fl d st).dats_files_count = st.dats_files_count := by
  unfold updLicenses
  split <;> rfl

theorem updIsAbout_count (fl : Flags) (d : DatsData) (st : CollectState) :
    (updIsAbout fl d st).dats_files_count = st.dats_files_count := by
  unfold updIsAbout
  split
  · cases d.isAbout <;> rfl
  · rfl

theorem updFormats_count (fl : Flags) (d : DatsData) (st : CollectState) :
    (updFormats fl d st).dats_files_count = st.dats_files_count := by
  unfold updFormats
  split <;> rfl

theorem updKeywords_count (fl : Flags) (d : DatsData) (st : CollectState) :
    (updKeywords fl d st).dats_files_count = st.dats_files_count := by
  unfold updKeywords
  split <;> rfl

theorem processDats_count (fl : Flags) (st : CollectState) (d : DatsData) :
    (processDats fl st d).dats_files_count = st.dats_files_count := by
  unfold processDats
  rw [updKeywords_count, updFormats_count, updIsAbout_count, updLicenses_count,
    updTypes_count, updPrivacy_count]

theorem collectStep_count (fl : Flags) (st : CollectState) (d : Dir) :
    (collectStep fl st d).dats_files_count =
      st.dats_files_count + (if hasDats d then 1 else 0) := by
  unfold collectStep
  cases hf : datsOf d with
  | some data =>
      have hd : hasDats d = true := by
        unfold datsOf at hf
        cases hq : d.files.find? (fun f => f.1 = "DATS.json") with
        | none => rw [hq] at hf; simp at hf
        | some p =>
            have hp := List.find?_some hq
            unfold hasDats
            rw [List.any_eq_true]
            exact ⟨p, List.mem_of_find?_eq_some hq, hp⟩
      rw [processDats_count, hd]
      simp
  | none =>
      have hd : hasDats d = false := by
        unfold datsOf at hf
        cases hq : d.files.find? (fun f => f.1 = "DATS.json") with
        | some p => rw [hq] at hf; simp at hf
        | none =>
            unfold hasDats
            rw [List.any_eq_false]
            intro f hfm
            exact (List.find?_eq_none.mp hq) f hfm
      simp [hd]

theorem foldl_collectStep_count (fl : Flags) :
    ∀ (ds : List Dir) (st : CollectState),
      (ds.foldl (collectStep fl) st).dats_files_count =
        st.dats_files_count + (ds.filter (fun d => hasDats d)).length := by
  intro ds
  induction ds with
  | nil => intro st; simp
  | cons d ds ih =>
      intro st
      rw [List.foldl_cons, ih, collectStep_count]
      by_cases hd : hasDats d
      · simp [hd]
        omega
      · simp [hd]

mutual

theorem countDatsDirs_eq_walk :
    ∀ d : Dir,
      countDatsDirs d = ((walkDirs d).filter (fun x => hasDats x)).length
  | Dir.mk fs subs => by
      rw [countDatsDirs, walkDirs, List.filter_cons]
      cases hd : hasDats (Dir.mk fs subs) <;>
        simp [hd, countDatsDirsList_eq_walk subs, Nat.add_comm]

theorem countDatsDirsList_eq_walk :
    ∀ ds : List Dir,
      countDatsDirsList ds = ((walkDirsList ds).filter (fun x => hasDats x)).length
  | [] => rfl
  | d :: ds => by
      rw [countDatsDirsList, walkDirsList, List.filter_append,
        List.length_append, countDatsDirs_eq_walk d, countDatsDirsList_eq_walk ds]

end

/-- C7, confirmed.  For every directory tree containing exactly `N`
directories that hold a file named `DATS.json`, the file count returned by
`collect_values` equals `N`. -/
theorem C7_file_count (fl : Flags) (root : Dir) (N : Nat)
    (h : countDatsDirs root = N) : (collect_values fl root).2 = N := by
  have hc : (collect_values fl root).2 =
      ((walkDirs root).foldl (collectStep fl) initCollectState).dats_files_count := rfl
  rw [hc, foldl_collectStep_count]
  rw [countDatsDirs_eq_walk] at h
  simpa [initCollectState] using h

/-- Witness for `C7_file_count`: a tree with two `DATS.json`-bearing
directories (one nested two levels deep) and one bare directory. -/
theorem C7_witness :
    (collect_values ⟨true, true, true, true, true, true⟩
      (Dir.mk []
        [Dir.mk [("DATS.json", ⟨some "Open", [], [], none, [], []⟩)] [],
         Dir.mk [("readme", ⟨none, [], [], none, [], []⟩)]
           [Dir.mk [("DATS.json", ⟨none, [], [], none, [], []⟩)] []]])).2 = 2 :=
  C7_file_count ⟨true, true, true, true, true, true⟩
    (Dir.mk []
      [Dir.mk [("DATS.json", ⟨some "Open", [], [], none, [], []⟩)] [],
       Dir.mk [("readme", ⟨none, [], [], none, [], []⟩)]
         [Dir.mk [("DATS.json", ⟨none, [], [], none, [], []⟩)] []]]) 2 (by decide)

/-! ### Claim C6: duplicate detection -/

theorem addTerm_bucketSizes (m : List (String × List String)) (t : String) :
    bucketSizes (addTerm m t) = bucketSizes m + 1 := by
  induction m with
  | nil => rfl
  | cons p rest ih =>
      obtain ⟨k, v⟩ := p
      unfold addTerm
      by_cases hk : k = pyLower t
      · simp [hk, bucketSizes]
        omega
      · simp only [if_neg hk]
        simp [bucketSizes] at ih ⊢
        omega

theorem foldl_addTerm_bucketSizes (ts : List String) :
    ∀ m, bucketSizes (ts.foldl addTerm m) = bucketSizes m + ts.length := by
  induction ts with
  | nil => intro m; simp
  | cons t ts ih =>
      intro m
      rw [List.foldl_cons, ih, addTerm_bucketSizes]
      simp
      omega

theorem normalizeTerms_bucketSizes (ts : List String) :
    bucketSizes (normalizeTerms ts) = ts.length := by
  unfold normalizeTerms
  rw [foldl_addTerm_bucketSizes]
  simp [bucketSizes]

theorem addTerm_ne_nil (m : List (String × List String)) (t : String)
    (h : ∀ p ∈ m, p.2 ≠ []) : ∀ p ∈ addTerm m t, p.2 ≠ [] := by
  induction m with
  | nil =>
      intro p hp
      simp only [addTerm, List.mem_singleton] at hp
      subst hp
      simp
  | cons q rest ih =>
      obtain ⟨k, v⟩ := q
      intro p hp
      unfold addTerm at hp
      by_cases hk : k = pyLower t
      · rw [if_pos hk] at hp
        rcases List.mem_cons.mp hp with hp | hp
        · subst hp; simp
        · exact h p (List.mem_cons_of_mem _ hp)
      · rw [if_neg hk] at hp
        rcases List.mem_cons.mp hp with hp | hp
        · subst hp; exact h (k, v) (List.mem_cons_self _ _)
        · exact ih (fun q hq => h q (List.mem_cons_of_mem _ hq)) p hp

theorem foldl_addTerm_ne_nil (ts : List String) :
    ∀ m, (∀ p ∈ m, p.2 ≠ []) → ∀ p ∈ ts.foldl addTerm m, p.2 ≠ [] := by
  induction ts with
  | nil => intro m h; exact h
  | cons t ts ih =>
      intro m h
      rw [List.foldl_cons]
      exact ih _ (addTerm_ne_nil m t h)

theorem normalizeTerms_ne_nil (ts : List String) :
    ∀ p ∈ normalizeTerms ts, p.2 ≠ [] :=
  foldl_addTerm_ne_nil ts [] (by simp)

theorem length_le_bucketSizes (m : List (String × List String))
    (hne : ∀ p ∈ m, p.2 ≠ []) : m.length ≤ bucketSizes m := by
  induction m with
  | nil => simp [bucketSizes]
  | cons q rest ih =>
      have hq1 : 1 ≤ q.2.length := by
        have := hne q (List.mem_cons_self _ _)
        cases hql : q.2 with
        | nil => exact absurd hql this
        | cons a l => simp
      have := ih (fun p hp => hne p (List.mem_cons_of_mem _ hp))
      simp only [bucketSizes, List.map_cons, List.sum_cons, List.length_cons] at this ⊢
      omega

theorem all_singletons_of_length_eq_bucketSizes
    (m : List (String × List String)) (hne : ∀ p ∈ m, p.2 ≠ [])
    (he : m.length = bucketSizes m) : ∀ p ∈ m, p.2.length = 1 := by
  induction m with
  | nil => simp
  | cons q rest ih =>
      have hq1 : 1 ≤ q.2.length := by
        have := hne q (List.mem_cons_self _ _)
        cases hql : q.2 with
        | nil => exact absurd hql this
        | cons a l => simp
      have hrest : rest.length ≤ bucketSizes rest :=
        length_le_bucketSizes rest (fun p hp => hne p (List.mem_cons_of_mem _ hp))
      simp only [List.length_cons, bucketSizes, List.map_cons, List.sum_cons] at he
      have hq : q.2.length = 1 ∧ rest.length = bucketSizes rest := by
        simp only [bucketSizes] at hrest ⊢
        omega
      intro p hp
      rcases List.mem_cons.mp hp with hp | hp
      · subst hp; exact hq.1
      · exact ih (fun r hr => hne r (List.mem_cons_of_mem _ hr)) hq.2 p hp

theorem dupMessagesFor_eq (key : String) (e : ReportEntry)
    (h : e.count = e.values.length) :
    dupMessagesFor key e =
      ((normalizeTerms e.values).filter (fun p => 1 < p.2.length)).map
        (fun p => dupMessage key p.2) := by
  unfold dupMessagesFor
  by_cases hc : e.count = (normalizeTerms e.values).length
  · rw [if_pos hc]
    have hlen : (normalizeTerms e.values).length =
        bucketSizes (normalizeTerms e.values) := by
      rw [← hc, h, normalizeTerms_bucketSizes]
    have hall := all_singletons_of_length_eq_bucketSizes _
      (normalizeTerms_ne_nil e.values) hlen
    have hfil : (normalizeTerms e.values).filter (fun p => 1 < p.2.length) = [] := by
      rw [List.filter_eq_nil_iff]
      intro p hp
      simp [hall p hp]
    rw [hfil]
    rfl
  · rw [if_neg hc]

/-- C6, confirmed.  For a well-formed report entry (`count` equal to the
number of values, as `collect_values` produces), the per-property body of
`find_duplicates` emits exactly one message per lowercase-group of two or more
original-case variants — the message naming the (title-cased) property and
listing the whole group — and emits nothing when every group is a singleton.
Concretely, `["Male", "male", "MALE"]` under `privacy` yields exactly the one
message `Privacy duplicate terms: ['Male', 'male', 'MALE']`, and `["Male"]`
alone yields no message. -/
theorem C6_duplicate_messages (key : String) (e : ReportEntry)
    (h : e.count = e.values.length) :
    dupMessagesFor key e =
      ((normalizeTerms e.values).filter (fun p => 1 < p.2.length)).map
        (fun p => dupMessage key p.2)
    ∧ find_duplicates [("privacy", ⟨3, ["Male", "male", "MALE"]⟩)] =
        [dupMessage "privacy" ["Male", "male", "MALE"]]
    ∧ find_duplicates [("privacy", ⟨1, ["Male"]⟩)] = [] :=
  ⟨dupMessagesFor_eq key e h, by rfl, by rfl⟩

/-- Witness for `C6_duplicate_messages` at the three-variant entry. -/
theorem C6_witness :
    dupMessagesFor "privacy" ⟨3, ["Male", "male", "MALE"]⟩ =
      ((normalizeTerms ["Male", "male", "MALE"]).filter
        (fun p => 1 < p.2.length)).map (fun p => dupMessage "privacy" p.2)
    ∧ find_duplicates [("privacy", ⟨3, ["Male", "male", "MALE"]⟩)] =
        [dupMessage "privacy" ["Male", "male", "MALE"]]
    ∧ find_duplicates [("privacy", ⟨1, ["Male"]⟩)] = [] :=
  C6_duplicate_messages "privacy" ⟨3, ["Male", "male", "MALE"]⟩ (by decide)
